import Mathlib

/-!
Shallow embedding of the MMRcex spread-monitor core: the spread detector
(`spread_detector.py`), the order-book validator (`bot_rest.py`,
`SpreadMonitor.validate_opportunity`), the funding gate
(`funding_checker.py`, `FundingRateChecker.is_funding_ok`) and the smart
cooldown engine (`signal_generator.py`, `SmartSignalGenerator`).

Python floats are modelled by `ℚ`, Python ints by `ℤ`/`ℕ`, dictionaries by
association lists with first-match lookup, and timestamps by rationals
(subtraction of `datetime` values becomes rational subtraction).
-/

namespace MMRcex

/-- Trade direction tag written into an opportunity
(`spread_detector.py`, line 118). -/
inductive Signal
  | MEXC_LONG
  | MEXC_SHORT
deriving DecidableEq, Repr

/-- Static blacklist of problem tokens (`spread_detector.py`, lines 8-12). -/
def BLACKLIST : List String :=
  ["STRAXUSDT", "IDEXUSDT", "DGBUSDT", "SNTUSDT", "XCNUSDT",
   "VOXELUSDT", "FISUSDT", "TOKENUSDT", "OBOLUSDT", "REIUSDT",
   "SKATEUSDT", "MEGAUSDT", "MILKUSDT", "PONKEUSDT", "ORBSUSDT"]

/-- Mirror of the dataclass `SpreadOpportunity` (`spread_detector.py`,
lines 15-30). -/
structure SpreadOpportunity where
  symbol : String
  mexc_price : ℚ
  other_exchange : String
  other_price : ℚ
  spread_percent : ℚ
  signal : Signal
  mexc_volume : ℚ
  other_volume : ℚ
  quality_score : ℤ
deriving DecidableEq, Repr

/-- First-match lookup in an association list; models `dict.get` /
`symbol in d` followed by `d[symbol]` on a Python dict. -/
def dictGet {α : Type} : List (String × α) → String → Option α
  | [], _ => none
  | (k, v) :: rest, key => if k = key then some v else dictGet rest key

/-- Volume component of the quality score (`spread_detector.py`,
lines 49-59): 50/40/30/20/10/0 by volume tier. -/
def volumeScore (min_vol : ℚ) : ℤ :=
  if min_vol ≥ 10000000 then 50
  else if min_vol ≥ 5000000 then 40
  else if min_vol ≥ 2000000 then 30
  else if min_vol ≥ 1000000 then 20
  else if min_vol ≥ 500000 then 10
  else 0

/-- Spread component of the quality score (`spread_detector.py`,
lines 61-69): 40/35/25/15/0 by spread tier. -/
def spreadScore (spread : ℚ) : ℤ :=
  if spread ≥ 25 then 40
  else if spread ≥ 20 then 35
  else if spread ≥ 15 then 25
  else if spread ≥ 10 then 15
  else 0

/-- Bonus component of the quality score (`spread_detector.py`,
lines 71-73): +10 when both volume and spread are high. -/
def bonusScore (spread min_vol : ℚ) : ℤ :=
  if min_vol ≥ 2000000 ∧ spread ≥ 15 then 10 else 0

/-- Mirror of `SpreadDetector.calculate_quality` (`spread_detector.py`,
lines 45-75): sum of the three components, capped at 100. -/
def calculate_quality (spread min_vol : ℚ) : ℤ :=
  min 100 (volumeScore min_vol + spreadScore spread + bonusScore spread min_vol)

/-- Effective volume used by the detector (`spread_detector.py`, line 100):
`min(mexc_vol, other_vol) if other_vol else mexc_vol`; a zero (falsy)
secondary volume falls back to the primary volume alone. -/
def effectiveVolume (mexc_vol other_vol : ℚ) : ℚ :=
  if other_vol ≠ 0 then min mexc_vol other_vol else mexc_vol

/-- Cross-exchange spread as a percentage (`spread_detector.py`, line 107). -/
def spreadOf (mexc_price other_price : ℚ) : ℚ :=
  |mexc_price - other_price| / min mexc_price other_price * 100

/-- Body of the inner loop of `SpreadDetector.detect` for one
(symbol, secondary exchange) pair (`spread_detector.py`, lines 99-130):
volume gate, spread gate, quality gate, then the emitted opportunity. -/
def detectPair (min_spread min_volume : ℚ) (symbol : String)
    (mexc_price mexc_vol : ℚ) (exchange : String) (other_price other_vol : ℚ) :
    Option SpreadOpportunity :=
  let min_vol := effectiveVolume mexc_vol other_vol
  if min_vol < min_volume then none
  else
    let spread := spreadOf mexc_price other_price
    if spread < min_spread then none
    else
      let quality := calculate_quality spread min_vol
      if quality < 40 then none
      else some
        { symbol := symbol
          mexc_price := mexc_price
          other_exchange := exchange
          other_price := other_price
          spread_percent := spread
          signal := if other_price > mexc_price then Signal.MEXC_LONG else Signal.MEXC_SHORT
          mexc_volume := mexc_vol
          other_volume := other_vol
          quality_score := quality }

/-- Inner loop of `SpreadDetector.detect` over the secondary exchanges
(`spread_detector.py`, lines 95-130): skip exchanges that do not list the
symbol, otherwise run `detectPair`. -/
def detectSymbol (min_spread min_volume : ℚ) (symbol : String)
    (mexc_price mexc_vol : ℚ)
    (other_data : List (String × List (String × (ℚ × ℚ)))) :
    List SpreadOpportunity :=
  other_data.filterMap fun ed =>
    match dictGet ed.2 symbol with
    | none => none
    | some pv => detectPair min_spread min_volume symbol mexc_price mexc_vol ed.1 pv.1 pv.2

/-- Outer loop of `SpreadDetector.detect` (`spread_detector.py`,
lines 86-130): skip blacklisted symbols and low-primary-volume symbols,
then scan every secondary exchange. -/
def detectAll (min_spread min_volume : ℚ)
    (mexc_data : List (String × (ℚ × ℚ)))
    (other_data : List (String × List (String × (ℚ × ℚ)))) :
    List SpreadOpportunity :=
  mexc_data.flatMap fun entry =>
    if entry.1 ∈ BLACKLIST then []
    else if entry.2.2 < min_volume then []
    else detectSymbol min_spread min_volume entry.1 entry.2.1 entry.2.2 other_data

/-- Mirror of `SpreadDetector.detect` (`spread_detector.py`, lines 77-136):
collect the opportunities, then sort by quality score descending
(`opps.sort(key=..., reverse=True)`, a stable sort). -/
def detect (min_spread min_volume : ℚ)
    (mexc_data : List (String × (ℚ × ℚ)))
    (other_data : List (String × List (String × (ℚ × ℚ)))) :
    List SpreadOpportunity :=
  (detectAll min_spread min_volume mexc_data other_data).mergeSort
    (fun a b => decide (b.quality_score ≤ a.quality_score))

/-- Entry leg chosen by the validator from the signal (`bot_rest.py`,
lines 165-177): buy the MEXC ask for a long, the secondary ask for a short. -/
def entry_price_of (sig : Signal) (mexc_ask other_ask : ℚ) : ℚ :=
  if sig = Signal.MEXC_LONG then mexc_ask else other_ask

/-- Exit leg chosen by the validator from the signal (`bot_rest.py`,
lines 165-177): sell at the secondary bid for a long, the MEXC bid for a short. -/
def exit_price_of (sig : Signal) (mexc_bid other_bid : ℚ) : ℚ :=
  if sig = Signal.MEXC_LONG then other_bid else mexc_bid

/-- Mirror of `SpreadMonitor.validate_opportunity` (`bot_rest.py`,
lines 122-199).  The two order-book fetches are passed in as
`Option (bid × ask)`; `none` covers both a missing order book and an
unresolvable secondary client, each of which rejects without touching the
opportunity.  The result is the returned boolean together with the
opportunity after the call (the Python code mutates it in place). -/
def validate_opportunity (min_threshold : ℚ) (opp : SpreadOpportunity)
    (mexc_ob other_ob : Option (ℚ × ℚ)) : Bool × SpreadOpportunity :=
  match mexc_ob with
  | none => (false, opp)
  | some mob =>
    match other_ob with
    | none => (false, opp)
    | some oob =>
      let mexc_bid := mob.1
      let mexc_ask := mob.2
      let other_bid := oob.1
      let other_ask := oob.2
      let mexc_spread := (mexc_ask - mexc_bid) / mexc_bid * 100
      let other_spread := (other_ask - other_bid) / other_bid * 100
      if mexc_spread > 5 ∨ other_spread > 5 then (false, opp)
      else
        let entry_price := entry_price_of opp.signal mexc_ask other_ask
        let exit_price := exit_price_of opp.signal mexc_bid other_bid
        if entry_price ≥ exit_price then (false, opp)
        else
          let real_spread := (exit_price - entry_price) / entry_price * 100
          let opp2 : SpreadOpportunity :=
            { opp with
              spread_percent := real_spread
              mexc_price := if opp.signal = Signal.MEXC_LONG then mexc_ask else mexc_bid
              other_price := if opp.signal = Signal.MEXC_LONG then other_bid else other_ask }
          if real_spread < min_threshold then (false, opp2)
          else (true, opp2)

/-- Outcome tag returned by the funding gate; the Python code returns
distinct format strings (`funding_checker.py`, lines 119-142), modelled as
a closed variant type carrying the data interpolated into each string. -/
inductive FundingReason
  | NO_DATA
  | OK
  | TOO_HIGH (exchange : String) (rate : ℚ)
  | AGAINST_LONG (rate : ℚ)
  | AGAINST_SHORT (rate : ℚ)
deriving DecidableEq, Repr

/-- True exactly on the directional long-vs-negative-funding reason
(the `"MEXC funding ...% against long"` string of `funding_checker.py`,
line 138). -/
def FundingReason.is_directional_long : FundingReason → Bool
  | FundingReason.AGAINST_LONG _ => true
  | _ => false

/-- Primary-exchange funding-rate lookup (`funding_checker.py`, line 112). -/
def mexc_rate_of (mexc_rates : List (String × ℚ)) (symbol : String) : Option ℚ :=
  dictGet mexc_rates symbol

/-- Secondary-exchange funding-rate lookup (`funding_checker.py`,
lines 113-116): only Binance has funding data; every other secondary
exchange yields `none`. -/
def other_rate_of (binance_rates : List (String × ℚ))
    (symbol other_exchange : String) : Option ℚ :=
  if other_exchange = "Binance" then dictGet binance_rates symbol else none

/-- The `rates_to_check` list built by `is_funding_ok`
(`funding_checker.py`, lines 123-127): the known (exchange, rate) pairs,
primary first. -/
def rates_to_check (mexc_rates binance_rates : List (String × ℚ))
    (symbol other_exchange : String) : List (String × ℚ) :=
  (match mexc_rate_of mexc_rates symbol with
   | some r => [("MEXC", r)]
   | none => []) ++
  (match other_rate_of binance_rates symbol other_exchange with
   | some r => [(other_exchange, r)]
   | none => [])

/-- The magnitude loop of `is_funding_ok` (`funding_checker.py`,
lines 129-131): first pair whose absolute rate strictly exceeds the cap. -/
def checkExtreme (max_rate : ℚ) : List (String × ℚ) → Option (String × ℚ)
  | [] => none
  | p :: rest => if |p.2| > max_rate then some p else checkExtreme max_rate rest

/-- Mirror of `FundingRateChecker.is_funding_ok` (`funding_checker.py`,
lines 105-142).  `max_rate` is the stored decimal `self.max_rate`
(the configured percentage divided by 100, line 15). -/
def is_funding_ok (max_rate : ℚ) (mexc_rates binance_rates : List (String × ℚ))
    (symbol : String) (mexc_signal : Signal) (other_exchange : String) :
    Bool × FundingReason :=
  let mexc_rate := mexc_rate_of mexc_rates symbol
  let other_rate := other_rate_of binance_rates symbol other_exchange
  if mexc_rate = none ∧ other_rate = none then (true, FundingReason.NO_DATA)
  else
    match checkExtreme max_rate (rates_to_check mexc_rates binance_rates symbol other_exchange) with
    | some p => (false, FundingReason.TOO_HIGH p.1 p.2)
    | none =>
      match mexc_rate with
      | some r =>
        if mexc_signal = Signal.MEXC_LONG ∧ r < -max_rate then
          (false, FundingReason.AGAINST_LONG r)
        else if mexc_signal = Signal.MEXC_SHORT ∧ r > max_rate then
          (false, FundingReason.AGAINST_SHORT r)
        else (true, FundingReason.OK)
      | none => (true, FundingReason.OK)

/-- Mirror of the dataclass `SpreadHistory` (`signal_generator.py`,
lines 9-17).  Times are rationals (minutes for the cooldown claims, hours
for the sweep claim; only differences are ever compared). -/
structure SpreadHistory where
  symbol : String
  exchange : String
  last_spread : ℚ
  last_notification_time : ℚ
  last_notification_spread : ℚ
  notification_count : ℕ
deriving DecidableEq, Repr

/-- Outcome tag of `SmartSignalGenerator.should_notify`
(`signal_generator.py`, lines 60-109), one constructor per reason string. -/
inductive NotifyReason
  | NEW_SPREAD
  | MIN_COOLDOWN
  | SPREAD_CHANGED
  | MAX_COOLDOWN
  | NO_SIGNIFICANT_CHANGE
deriving DecidableEq, Repr

/-- Mirror of `SmartSignalGenerator._get_key` (`signal_generator.py`,
lines 52-54). -/
def getKey (symbol exchange : String) : String := symbol ++ "_" ++ exchange

/-- Store a value under a key in an association list, overwriting an
existing binding or appending a new one; models `d[key] = value`. -/
def dictSet {α : Type} : List (String × α) → String → α → List (String × α)
  | [], key, v => [(key, v)]
  | (k, w) :: rest, key, v =>
    if k = key then (k, v) :: rest else (k, w) :: dictSet rest key v

/-- Mirror of `SmartSignalGenerator._update_history` (`signal_generator.py`,
lines 111-129) applied to one key of the history map. -/
def update_history (state : List (String × SpreadHistory))
    (opp : SpreadOpportunity) (timestamp : ℚ) : List (String × SpreadHistory) :=
  let key := getKey opp.symbol opp.other_exchange
  match dictGet state key with
  | some h =>
    dictSet state key
      { h with
        last_spread := opp.spread_percent
        last_notification_time := timestamp
        last_notification_spread := opp.spread_percent
        notification_count := h.notification_count + 1 }
  | none =>
    dictSet state key
      { symbol := opp.symbol
        exchange := opp.other_exchange
        last_spread := opp.spread_percent
        last_notification_time := timestamp
        last_notification_spread := opp.spread_percent
        notification_count := 1 }

/-- Mirror of `SmartSignalGenerator.should_notify` (`signal_generator.py`,
lines 60-109).  The wall clock `datetime.now()` is passed in explicitly as
`now`; the result is (should_notify, reason) together with the history map
after the call (mutated only on the notify paths, which call
`_update_history`). -/
def should_notify (min_spread_change min_cooldown max_cooldown : ℚ)
    (state : List (String × SpreadHistory)) (opp : SpreadOpportunity) (now : ℚ) :
    Bool × NotifyReason × List (String × SpreadHistory) :=
  let key := getKey opp.symbol opp.other_exchange
  match dictGet state key with
  | none => (true, NotifyReason.NEW_SPREAD, update_history state opp now)
  | some history =>
    let time_since_last := now - history.last_notification_time
    let spread_change := |opp.spread_percent - history.last_notification_spread|
    if time_since_last < min_cooldown then
      (false, NotifyReason.MIN_COOLDOWN, state)
    else if spread_change ≥ min_spread_change then
      (true, NotifyReason.SPREAD_CHANGED, update_history state opp now)
    else if time_since_last ≥ max_cooldown then
      (true, NotifyReason.MAX_COOLDOWN, update_history state opp now)
    else
      (false, NotifyReason.NO_SIGNIFICANT_CHANGE, state)

/-- Mirror of `SmartSignalGenerator.update_spread_without_notify`
(`signal_generator.py`, lines 131-136): refresh `last_spread` when the key
is tracked, otherwise leave the map alone. -/
def update_spread_without_notify (state : List (String × SpreadHistory))
    (opp : SpreadOpportunity) : List (String × SpreadHistory) :=
  let key := getKey opp.symbol opp.other_exchange
  match dictGet state key with
  | some h => dictSet state key { h with last_spread := opp.spread_percent }
  | none => state

/-- The per-opportunity flow of `SmartSignalGenerator.filter_opportunities`
(`signal_generator.py`, lines 149-157) over an explicit event list of
(opportunity, wall-clock time) pairs: returns the (key, time) of every
decision that notified. -/
def runNotify (min_spread_change min_cooldown max_cooldown : ℚ)
    (state : List (String × SpreadHistory)) :
    List (SpreadOpportunity × ℚ) → List (String × ℚ)
  | [] => []
  | (opp, now) :: rest =>
    let r := should_notify min_spread_change min_cooldown max_cooldown state opp now
    if r.1 then
      (getKey opp.symbol opp.other_exchange, now) ::
        runNotify min_spread_change min_cooldown max_cooldown r.2.2 rest
    else
      runNotify min_spread_change min_cooldown max_cooldown
        (update_spread_without_notify r.2.2 opp) rest

/-- Notification times of a run that belong to one key. -/
def notifyTimes (key : String) (events : List (String × ℚ)) : List ℚ :=
  events.filterMap fun e => if e.1 = key then some e.2 else none

/-- Mirror of `SmartSignalGenerator.cleanup_old_entries`
(`signal_generator.py`, lines 171-183): drop every entry whose
`last_notification_time` is before `now - max_age_hours`. -/
def cleanup_old_entries (now max_age_hours : ℚ)
    (state : List (String × SpreadHistory)) : List (String × SpreadHistory) :=
  state.filter fun e => ¬ (e.2.last_notification_time < now - max_age_hours)

/-- The non-Binance branch of `SpreadMonitor.fetch_prices` (`bot_rest.py`,
line 115): `{s: (p, 1e9) for s, p in raw.items()}` — every listed symbol
gets the fixed 24h volume `10^9`. -/
def fixedVolumeSnapshot (raw : List (String × ℚ)) : List (String × (ℚ × ℚ)) :=
  raw.map fun e => (e.1, (e.2, 1000000000))

/-! ### Helper lemmas -/

/-- A successful lookup returns a binding that is present in the list. -/
lemma dictGet_mem {α : Type} {l : List (String × α)} {k : String} {v : α}
    (h : dictGet l k = some v) : (k, v) ∈ l := by
  induction l with
  | nil => simp [dictGet] at h
  | cons e rest ih =>
    obtain ⟨k0, v0⟩ := e
    rw [dictGet] at h
    by_cases he : k0 = k
    · rw [if_pos he] at h
      subst he
      rw [Option.some.injEq] at h
      subst h
      exact List.mem_cons_self _ _
    · rw [if_neg he] at h
      exact List.mem_cons_of_mem _ (ih h)

/-- Field-level description of a successful `detectPair`. -/
lemma detectPair_eq_some {ms mv : ℚ} {sym : String} {mp mvol : ℚ} {ex : String}
    {p v : ℚ} {opp : SpreadOpportunity}
    (h : detectPair ms mv sym mp mvol ex p v = some opp) :
    opp.symbol = sym ∧ opp.mexc_price = mp ∧ opp.other_price = p ∧
    opp.mexc_volume = mvol ∧ opp.other_volume = v ∧ opp.other_exchange = ex ∧
    opp.spread_percent = spreadOf mp p ∧
    ¬ (opp.spread_percent < ms) ∧
    opp.quality_score = calculate_quality (spreadOf mp p) (effectiveVolume mvol v) ∧
    ¬ (opp.quality_score < 40) ∧
    opp.signal = (if p > mp then Signal.MEXC_LONG else Signal.MEXC_SHORT) := by
  simp only [detectPair] at h
  split_ifs at h with h1 h2 h3 h4 <;>
  · rw [Option.some.injEq] at h
    subst h
    refine ⟨rfl, rfl, rfl, rfl, rfl, rfl, rfl, h2, rfl, h3, ?_⟩
    simp [h4]

/-- Membership in the detector output unfolds to a witnessing snapshot entry
on each side together with a successful `detectPair`. -/
lemma mem_detect {ms mv : ℚ} {md : List (String × (ℚ × ℚ))}
    {od : List (String × List (String × (ℚ × ℚ)))} {opp : SpreadOpportunity}
    (h : opp ∈ detect ms mv md od) :
    ∃ e ∈ md, e.1 ∉ BLACKLIST ∧ ¬ (e.2.2 < mv) ∧
      ∃ ed ∈ od, ∃ pv, dictGet ed.2 e.1 = some pv ∧
        detectPair ms mv e.1 e.2.1 e.2.2 ed.1 pv.1 pv.2 = some opp := by
  rw [detect, List.mem_mergeSort] at h
  rw [detectAll, List.mem_flatMap] at h
  obtain ⟨e, he, hopp⟩ := h
  refine ⟨e, he, ?_⟩
  by_cases hb : e.1 ∈ BLACKLIST
  · rw [if_pos hb] at hopp
    simp at hopp
  rw [if_neg hb] at hopp
  by_cases hv : e.2.2 < mv
  · rw [if_pos hv] at hopp
    simp at hopp
  rw [if_neg hv] at hopp
  refine ⟨hb, hv, ?_⟩
  rw [detectSymbol, List.mem_filterMap] at hopp
  obtain ⟨ed, hed, hpair⟩ := hopp
  refine ⟨ed, hed, ?_⟩
  cases hg : dictGet ed.2 e.1 with
  | none => rw [hg] at hpair; simp at hpair
  | some pv => rw [hg] at hpair; exact ⟨pv, rfl, hpair⟩

/-- The volume component never goes down when the volume goes up. -/
lemma volumeScore_mono {v w : ℚ} (h : v ≤ w) : volumeScore v ≤ volumeScore w := by
  rw [volumeScore, volumeScore]
  split_ifs <;> linarith

/-- The spread component never goes down when the spread goes up. -/
lemma spreadScore_mono {s t : ℚ} (h : s ≤ t) : spreadScore s ≤ spreadScore t := by
  rw [spreadScore, spreadScore]
  split_ifs <;> linarith

/-- The bonus never goes down when either input goes up. -/
lemma bonusScore_mono {s t v w : ℚ} (hs : s ≤ t) (hv : v ≤ w) :
    bonusScore s v ≤ bonusScore t w := by
  rw [bonusScore, bonusScore]
  split_ifs with h1 h2 h2
  · norm_num
  · exact absurd ⟨le_trans h1.1 hv, le_trans h1.2 hs⟩ h2
  · norm_num
  · norm_num

/-- The volume component is between 0 and 50. -/
lemma volumeScore_bounds (v : ℚ) : 0 ≤ volumeScore v ∧ volumeScore v ≤ 50 := by
  rw [volumeScore]
  split_ifs <;> norm_num

/-- The spread component is between 0 and 40. -/
lemma spreadScore_bounds (s : ℚ) : 0 ≤ spreadScore s ∧ spreadScore s ≤ 40 := by
  rw [spreadScore]
  split_ifs <;> norm_num

/-- The bonus is between 0 and 10. -/
lemma bonusScore_bounds (s v : ℚ) : 0 ≤ bonusScore s v ∧ bonusScore s v ≤ 10 := by
  rw [bonusScore]
  split_ifs <;> norm_num

/-- The quality score lies in [0, 100] for every pair of inputs. -/
lemma calculate_quality_bounds (s v : ℚ) :
    0 ≤ calculate_quality s v ∧ calculate_quality s v ≤ 100 := by
  rw [calculate_quality]
  constructor
  · exact le_min (by norm_num)
      (by linarith [(volumeScore_bounds v).1, (spreadScore_bounds s).1, (bonusScore_bounds s v).1])
  · exact min_le_left _ _

/-! ### Claim theorems -/

/-- C1: every Opportunity emitted by the Spread Detector has
`spreadPercent = |p1 − p2| / min(p1, p2) × 100` (hence ≥ 0, given that
snapshot prices are positive), `spreadPercent ≥ minSpreadThreshold`,
`qualityScore ≥ 40`, and a symbol outside the Blacklist. -/
theorem C1_detect_output_invariants (ms mv : ℚ) (md : List (String × (ℚ × ℚ)))
    (od : List (String × List (String × (ℚ × ℚ)))) (opp : SpreadOpportunity)
    (hmem : opp ∈ detect ms mv md od)
    (hmd : ∀ e ∈ md, 0 < e.2.1)
    (hod : ∀ ed ∈ od, ∀ e ∈ ed.2, 0 < e.2.1) :
    opp.spread_percent =
      |opp.mexc_price - opp.other_price| / min opp.mexc_price opp.other_price * 100 ∧
    0 ≤ opp.spread_percent ∧
    ms ≤ opp.spread_percent ∧
    40 ≤ opp.quality_score ∧
    opp.symbol ∉ BLACKLIST := by
  obtain ⟨e, he, hb, hv, ed, hed, pv, hg, hpair⟩ := mem_detect hmem
  obtain ⟨hsym, hmp, hop, -, -, -, hsp, hge, -, hqge, -⟩ := detectPair_eq_some hpair
  have hmp_pos : 0 < e.2.1 := hmd e he
  have hpv_pos : 0 < pv.1 := hod ed hed _ (dictGet_mem hg)
  have hform : opp.spread_percent =
      |opp.mexc_price - opp.other_price| / min opp.mexc_price opp.other_price * 100 := by
    rw [hsp, hmp, hop, spreadOf]
  refine ⟨hform, ?_, not_lt.mp hge, not_lt.mp hqge, hsym ▸ hb⟩
  rw [hform, hmp, hop]
  have hmin : 0 < min e.2.1 pv.1 := lt_min hmp_pos hpv_pos
  exact mul_nonneg (div_nonneg (abs_nonneg _) (le_of_lt hmin)) (by norm_num)

/-- Concrete snapshot entry emitted by the detector, used by witnesses. -/
def oppW : SpreadOpportunity :=
  { symbol := "BTCUSDT", mexc_price := 100, other_exchange := "Binance", other_price := 115,
    spread_percent := 15, signal := Signal.MEXC_LONG, mexc_volume := 2000000,
    other_volume := 3000000, quality_score := 65 }

/-- The concrete detector run behind the witnesses. -/
lemma detect_concrete :
    detect 10 500000 [("BTCUSDT", (100, 2000000))]
      [("Binance", [("BTCUSDT", (115, 3000000))])] = [oppW] := by
  norm_num +decide [detect, detectAll, detectSymbol, detectPair, dictGet, effectiveVolume,
    spreadOf, calculate_quality, volumeScore, spreadScore, bonusScore, BLACKLIST, oppW,
    List.filterMap_cons, List.mergeSort]

/-- Witness for C1 at a concrete snapshot. -/
theorem C1_witness :
    oppW.spread_percent =
      |oppW.mexc_price - oppW.other_price| / min oppW.mexc_price oppW.other_price * 100 ∧
    0 ≤ oppW.spread_percent ∧
    (10:ℚ) ≤ oppW.spread_percent ∧
    40 ≤ oppW.quality_score ∧
    oppW.symbol ∉ BLACKLIST :=
  C1_detect_output_invariants 10 500000 [("BTCUSDT", (100, 2000000))]
    [("Binance", [("BTCUSDT", (115, 3000000))])] oppW
    (by rw [detect_concrete]; exact List.mem_singleton.mpr rfl)
    (by intro e he; simp at he; rw [he]; norm_num)
    (by intro ed hed e he; simp at hed; rw [hed] at he; simp at he; rw [he]; norm_num)

/-- C7: the quality score is monotonic non-decreasing in each argument
separately and always lies in [0, 100], for non-negative inputs. -/
theorem C7_quality_monotone_bounded :
    (∀ s v w : ℚ, 0 ≤ s → 0 ≤ v → 0 ≤ w → v ≤ w →
      calculate_quality s v ≤ calculate_quality s w) ∧
    (∀ s t v : ℚ, 0 ≤ s → 0 ≤ t → 0 ≤ v → s ≤ t →
      calculate_quality s v ≤ calculate_quality t v) ∧
    (∀ s v : ℚ, 0 ≤ s → 0 ≤ v →
      0 ≤ calculate_quality s v ∧ calculate_quality s v ≤ 100) := by
  refine ⟨?_, ?_, ?_⟩
  · intro s v w _ _ _ hvw
    rw [calculate_quality, calculate_quality]
    exact min_le_min le_rfl
      (add_le_add (add_le_add (volumeScore_mono hvw) le_rfl) (bonusScore_mono le_rfl hvw))
  · intro s t v _ _ _ hst
    rw [calculate_quality, calculate_quality]
    exact min_le_min le_rfl
      (add_le_add (add_le_add le_rfl (spreadScore_mono hst)) (bonusScore_mono hst le_rfl))
  · intro s v _ _
    exact calculate_quality_bounds s v

/-- Witness for C7 at concrete inputs. -/
theorem C7_witness :
    calculate_quality 15 1000000 ≤ calculate_quality 15 2000000 ∧
    calculate_quality 10 1000000 ≤ calculate_quality 15 1000000 ∧
    (0 ≤ calculate_quality 15 1000000 ∧ calculate_quality 15 1000000 ≤ 100) :=
  ⟨C7_quality_monotone_bounded.1 15 1000000 2000000
      (by norm_num) (by norm_num) (by norm_num) (by norm_num),
   C7_quality_monotone_bounded.2.1 10 15 1000000
      (by norm_num) (by norm_num) (by norm_num) (by norm_num),
   C7_quality_monotone_bounded.2.2 15 1000000 (by norm_num) (by norm_num)⟩

/-- C8: every Opportunity created by the Spread Detector carries
`signal = MEXC_LONG` iff the secondary price exceeds the primary price. -/
theorem C8_signal_iff (ms mv : ℚ) (md : List (String × (ℚ × ℚ)))
    (od : List (String × List (String × (ℚ × ℚ)))) (opp : SpreadOpportunity)
    (hmem : opp ∈ detect ms mv md od) :
    opp.signal = Signal.MEXC_LONG ↔ opp.other_price > opp.mexc_price := by
  obtain ⟨e, he, hb, hv, ed, hed, pv, hg, hpair⟩ := mem_detect hmem
  obtain ⟨-, hmp, hop, -, -, -, -, -, -, -, hsig⟩ := detectPair_eq_some hpair
  rw [hsig, hmp, hop]
  by_cases hc : pv.1 > e.2.1
  · simp [hc]
  · simp [hc]

/-- Witness for C8 at a concrete snapshot. -/
theorem C8_witness : oppW.signal = Signal.MEXC_LONG ↔ oppW.other_price > oppW.mexc_price :=
  C8_signal_iff 10 500000 [("BTCUSDT", (100, 2000000))]
    [("Binance", [("BTCUSDT", (115, 3000000))])] oppW
    (by rw [detect_concrete]; exact List.mem_singleton.mpr rfl)

/-- C9: the periodic sweep keeps a (key, entry) binding exactly when it was
present before and `now − lastNotificationTime ≤ historyMaxAgeHours`; hence
it removes exactly the strictly older entries and leaves the rest unchanged. -/
theorem C9_cleanup_exact (now max_age_hours : ℚ)
    (state : List (String × SpreadHistory)) (k : String) (h : SpreadHistory) :
    (k, h) ∈ cleanup_old_entries now max_age_hours state ↔
      (k, h) ∈ state ∧ now - h.last_notification_time ≤ max_age_hours := by
  rw [cleanup_old_entries, List.mem_filter]
  constructor
  · rintro ⟨hm, hp⟩
    refine ⟨hm, ?_⟩
    rw [decide_eq_true_eq, not_lt] at hp
    linarith
  · rintro ⟨hm, hp⟩
    refine ⟨hm, ?_⟩
    rw [decide_eq_true_eq, not_lt]
    linarith

/-- C6 and C4 both need: when `checkExtreme` finds nothing, no listed rate
is extreme. -/
lemma checkExtreme_eq_none {max_rate : ℚ} {l : List (String × ℚ)}
    (h : checkExtreme max_rate l = none) : ∀ p ∈ l, ¬ (|p.2| > max_rate) := by
  induction l with
  | nil => intro p hp; simp at hp
  | cons q rest ih =>
    rw [checkExtreme] at h
    by_cases hq : |q.2| > max_rate
    · rw [if_pos hq] at h; simp at h
    · rw [if_neg hq] at h
      intro p hp
      rcases List.mem_cons.mp hp with rfl | hp2
      · exact hq
      · exact ih h p hp2

/-- When some listed rate is extreme, `checkExtreme` returns an extreme
listed pair. -/
lemma checkExtreme_of_exists {max_rate : ℚ} {l : List (String × ℚ)}
    (h : ∃ p ∈ l, |p.2| > max_rate) :
    ∃ q, checkExtreme max_rate l = some q ∧ q ∈ l ∧ |q.2| > max_rate := by
  induction l with
  | nil => simp at h
  | cons q rest ih =>
    rw [checkExtreme]
    by_cases hq : |q.2| > max_rate
    · exact ⟨q, by rw [if_pos hq], List.mem_cons_self _ _, hq⟩
    · rw [if_neg hq]
      obtain ⟨p, hp, hpx⟩ := h
      rcases List.mem_cons.mp hp with rfl | hp2
      · exact absurd hpx hq
      · obtain ⟨r, hr1, hr2, hr3⟩ := ih ⟨p, hp2, hpx⟩
        exact ⟨r, hr1, List.mem_cons_of_mem _ hr2, hr3⟩

/-- C6: if both funding rates are unknown the gate accepts with `NO_DATA`;
if any known rate's absolute value strictly exceeds the cap, the gate
rejects with a reason naming an offending known (exchange, rate) pair. -/
theorem C6_funding_no_data_and_extreme (max_rate : ℚ)
    (mexc_rates binance_rates : List (String × ℚ)) (symbol : String)
    (sig : Signal) (other_exchange : String) :
    (mexc_rate_of mexc_rates symbol = none →
      other_rate_of binance_rates symbol other_exchange = none →
      is_funding_ok max_rate mexc_rates binance_rates symbol sig other_exchange =
        (true, FundingReason.NO_DATA)) ∧
    ((∃ p ∈ rates_to_check mexc_rates binance_rates symbol other_exchange,
        |p.2| > max_rate) →
      (is_funding_ok max_rate mexc_rates binance_rates symbol sig other_exchange).1 = false ∧
      ∃ p ∈ rates_to_check mexc_rates binance_rates symbol other_exchange,
        |p.2| > max_rate ∧
        (is_funding_ok max_rate mexc_rates binance_rates symbol sig other_exchange).2 =
          FundingReason.TOO_HIGH p.1 p.2) := by
  constructor
  · intro hm ho
    rw [is_funding_ok, if_pos ⟨hm, ho⟩]
  · intro hex
    have hne : ¬ (mexc_rate_of mexc_rates symbol = none ∧
        other_rate_of binance_rates symbol other_exchange = none) := by
      rintro ⟨hm, ho⟩
      obtain ⟨p, hp, -⟩ := hex
      rw [rates_to_check, hm, ho] at hp
      simp at hp
    obtain ⟨q, hq1, hq2, hq3⟩ := checkExtreme_of_exists hex
    rw [is_funding_ok, if_neg hne, hq1]
    exact ⟨rfl, q, hq2, hq3, rfl⟩

/-- Witness for C6: both rates unknown accepts with `NO_DATA`; a known
1.2% MEXC rate against a 0.5% cap rejects naming MEXC. -/
theorem C6_witness :
    (is_funding_ok (1/200) [] [] "BTCUSDT" Signal.MEXC_LONG "Gate" =
      (true, FundingReason.NO_DATA)) ∧
    ((is_funding_ok (1/200) [("BTCUSDT", 3/250)] [] "BTCUSDT" Signal.MEXC_LONG "Gate").1 = false ∧
      ∃ p ∈ rates_to_check [("BTCUSDT", 3/250)] [] "BTCUSDT" "Gate",
        |p.2| > 1/200 ∧
        (is_funding_ok (1/200) [("BTCUSDT", 3/250)] [] "BTCUSDT" Signal.MEXC_LONG "Gate").2 =
          FundingReason.TOO_HIGH p.1 p.2) :=
  ⟨(C6_funding_no_data_and_extreme (1/200) [] [] "BTCUSDT" Signal.MEXC_LONG "Gate").1
      (by rw [mexc_rate_of, dictGet]) (by rw [other_rate_of, if_neg (by decide)]),
   (C6_funding_no_data_and_extreme (1/200) [("BTCUSDT", 3/250)] [] "BTCUSDT"
      Signal.MEXC_LONG "Gate").2
      ⟨("MEXC", 3/250),
        by simp +decide [rates_to_check, mexc_rate_of, other_rate_of, dictGet],
        by rw [show |(3:ℚ)/250| = 3/250 from abs_of_pos (by norm_num)]; norm_num⟩⟩

/-- C4 counterexample: with a 0.5% cap, a known −0.6% MEXC rate and an
unknown secondary rate, the gate does reject, but the reason is the
magnitude reason naming MEXC — not the directional long-vs-negative-funding
reason claimed. -/
theorem C4_counterexample :
    is_funding_ok (1/200) [("BTCUSDT", -(3/500))] [] "BTCUSDT" Signal.MEXC_LONG "Binance" =
      (false, FundingReason.TOO_HIGH "MEXC" (-(3/500))) ∧
    ((is_funding_ok (1/200) [("BTCUSDT", -(3/500))] [] "BTCUSDT"
        Signal.MEXC_LONG "Binance").2).is_directional_long = false := by
  have habs : |(3:ℚ)/500| = 3/500 := abs_of_pos (by norm_num)
  constructor
  · norm_num +decide [is_funding_ok, mexc_rate_of, other_rate_of, rates_to_check,
      checkExtreme, dictGet, habs]
  · norm_num +decide [is_funding_ok, mexc_rate_of, other_rate_of, rates_to_check,
      checkExtreme, dictGet, habs, FundingReason.is_directional_long]

/-- C4 amended: the −0.6% PRIMARY_LONG input is rejected with the magnitude
reason naming MEXC and the rate; the directional long-vs-negative-funding
reason is unreachable for every input, because the magnitude check
`|rate| > maxFundingRate` subsumes `rate < −maxFundingRate`. -/
theorem C4_amended :
    is_funding_ok (1/200) [("BTCUSDT", -(3/500))] [] "BTCUSDT" Signal.MEXC_LONG "Binance" =
      (false, FundingReason.TOO_HIGH "MEXC" (-(3/500))) ∧
    (∀ (max_rate : ℚ) (mexc_rates binance_rates : List (String × ℚ))
       (sym : String) (sig : Signal) (ex : String),
      ((is_funding_ok max_rate mexc_rates binance_rates sym sig ex).2).is_directional_long =
        false) := by
  constructor
  · have habs : |(3:ℚ)/500| = 3/500 := abs_of_pos (by norm_num)
    norm_num +decide [is_funding_ok, mexc_rate_of, other_rate_of, rates_to_check,
      checkExtreme, dictGet, habs]
  · intro max_rate mr br sym sig ex
    simp only [is_funding_ok]
    split_ifs with hnd
    · rfl
    · cases hce : checkExtreme max_rate (rates_to_check mr br sym ex) with
      | some p => rfl
      | none =>
        cases hmr : mexc_rate_of mr sym with
        | none => rfl
        | some r =>
          dsimp only
          split_ifs with hL hS
          · exfalso
            have hmem : ("MEXC", r) ∈ rates_to_check mr br sym ex := by
              rw [rates_to_check, hmr]
              exact List.mem_append_left _ (List.mem_singleton.mpr rfl)
            have hok := checkExtreme_eq_none hce _ hmem
            push_neg at hok
            have h2 := neg_abs_le r
            linarith [hL.2]
          · rfl
          · rfl

/-- Rejected-but-mutated input for C3: PRIMARY_LONG, healthy books,
entry 98 < exit 100, but the 2.04% real spread is below the 10% threshold. -/
def oppC3 : SpreadOpportunity :=
  { symbol := "ETHUSDT", mexc_price := 100, other_exchange := "Gate", other_price := 115,
    spread_percent := 15, signal := Signal.MEXC_LONG, mexc_volume := 1000000,
    other_volume := 1000000, quality_score := 65 }

/-- C3 counterexample: the validator rejects (final threshold check) yet the
opportunity's `spread_percent` has already been overwritten, so rejection
does not imply the fields are left as they were. -/
theorem C3_counterexample :
    (validate_opportunity 10 oppC3 (some (98, 98)) (some (100, 100))).1 = false ∧
    (validate_opportunity 10 oppC3 (some (98, 98)) (some (100, 100))).2.spread_percent ≠
      oppC3.spread_percent := by
  norm_num [validate_opportunity, entry_price_of, exit_price_of, oppC3]

/-- C3 amended: the validator never changes symbol, signal, exchange
identity, volumes or quality score; the opportunity is returned untouched
on every reject except the final minimum-threshold reject — once
entry < exit on healthy books, `spreadPercent` and the price fields are
overwritten with the executable values even if the threshold check then
rejects, and acceptance is exactly `realSpread ≥ minSpreadThreshold`. -/
theorem C3_amended (threshold : ℚ) (opp : SpreadOpportunity)
    (mexc_ob other_ob : Option (ℚ × ℚ)) :
    ((validate_opportunity threshold opp mexc_ob other_ob).2.symbol = opp.symbol ∧
     (validate_opportunity threshold opp mexc_ob other_ob).2.signal = opp.signal ∧
     (validate_opportunity threshold opp mexc_ob other_ob).2.other_exchange =
       opp.other_exchange ∧
     (validate_opportunity threshold opp mexc_ob other_ob).2.mexc_volume = opp.mexc_volume ∧
     (validate_opportunity threshold opp mexc_ob other_ob).2.other_volume = opp.other_volume ∧
     (validate_opportunity threshold opp mexc_ob other_ob).2.quality_score =
       opp.quality_score) ∧
    ((validate_opportunity threshold opp mexc_ob other_ob).2 = opp ∨
     ∃ mob oob, mexc_ob = some mob ∧ other_ob = some oob ∧
       entry_price_of opp.signal mob.2 oob.2 < exit_price_of opp.signal mob.1 oob.1 ∧
       (validate_opportunity threshold opp mexc_ob other_ob).2.spread_percent =
         (exit_price_of opp.signal mob.1 oob.1 - entry_price_of opp.signal mob.2 oob.2) /
           entry_price_of opp.signal mob.2 oob.2 * 100 ∧
       (validate_opportunity threshold opp mexc_ob other_ob).2.mexc_price =
         (if opp.signal = Signal.MEXC_LONG then mob.2 else mob.1) ∧
       (validate_opportunity threshold opp mexc_ob other_ob).2.other_price =
         (if opp.signal = Signal.MEXC_LONG then oob.1 else oob.2) ∧
       ((validate_opportunity threshold opp mexc_ob other_ob).1 = true ↔
         ¬ ((validate_opportunity threshold opp mexc_ob other_ob).2.spread_percent <
             threshold))) := by
  cases mexc_ob with
  | none => exact ⟨⟨rfl, rfl, rfl, rfl, rfl, rfl⟩, Or.inl rfl⟩
  | some mob =>
    cases other_ob with
    | none => exact ⟨⟨rfl, rfl, rfl, rfl, rfl, rfl⟩, Or.inl rfl⟩
    | some oob =>
      simp only [validate_opportunity]
      by_cases h1 : (mob.2 - mob.1) / mob.1 * 100 > 5 ∨ (oob.2 - oob.1) / oob.1 * 100 > 5
      · rw [if_pos h1]
        exact ⟨⟨rfl, rfl, rfl, rfl, rfl, rfl⟩, Or.inl rfl⟩
      · rw [if_neg h1]
        by_cases h2 : entry_price_of opp.signal mob.2 oob.2 ≥
            exit_price_of opp.signal mob.1 oob.1
        · rw [if_pos h2]
          exact ⟨⟨rfl, rfl, rfl, rfl, rfl, rfl⟩, Or.inl rfl⟩
        · rw [if_neg h2]
          by_cases h3 : (exit_price_of opp.signal mob.1 oob.1 -
              entry_price_of opp.signal mob.2 oob.2) /
                entry_price_of opp.signal mob.2 oob.2 * 100 < threshold
          · rw [if_pos h3]
            refine ⟨⟨rfl, rfl, rfl, rfl, rfl, rfl⟩,
              Or.inr ⟨mob, oob, rfl, rfl, lt_of_not_ge h2, rfl, rfl, rfl, ?_⟩⟩
            simp [h3]
          · rw [if_neg h3]
            refine ⟨⟨rfl, rfl, rfl, rfl, rfl, rfl⟩,
              Or.inr ⟨mob, oob, rfl, rfl, lt_of_not_ge h2, rfl, rfl, rfl, ?_⟩⟩
            simp [h3]

/-- PRIMARY_LONG candidate for the C5 validator scenarios. -/
def oppC5 : SpreadOpportunity :=
  { symbol := "SOLUSDT", mexc_price := 99, other_exchange := "Bybit", other_price := 112,
    spread_percent := 13, signal := Signal.MEXC_LONG, mexc_volume := 5000000,
    other_volume := 5000000, quality_score := 55 }

/-- C5 counterexample: with the 10% configured threshold, entry = 98 and
exit = 100 on healthy books is REJECTED (the ≈2.04% real spread evaporates
below the threshold), contradicting the claimed unconditional accept. -/
theorem C5_counterexample :
    (validate_opportunity 10 oppC5 (some (97, 98)) (some (100, 101))).1 = false := by
  norm_num [validate_opportunity, entry_price_of, exit_price_of, oppC5]

/-- C5 amended: for a PRIMARY_LONG candidate on healthy books,
entry 100 ≥ exit 98 always rejects with the opportunity untouched; with
entry 98 and exit 100 the real spread is 200/98 = 100/49 ≈ 2.04% and the
validator accepts exactly when `minSpreadThreshold ≤ 100/49`, rejecting
(with fields already overwritten) when the threshold is larger. -/
theorem C5_amended (threshold : ℚ) (opp : SpreadOpportunity)
    (hsig : opp.signal = Signal.MEXC_LONG) :
    (∀ mb oa : ℚ, (100 - mb) / mb * 100 ≤ 5 → (oa - 98) / 98 * 100 ≤ 5 →
      validate_opportunity threshold opp (some (mb, 100)) (some (98, oa)) = (false, opp)) ∧
    (¬ (100/49 < threshold) →
      validate_opportunity threshold opp (some (97, 98)) (some (100, 101)) =
        (true, { opp with spread_percent := 100/49, mexc_price := 98, other_price := 100 })) ∧
    (100/49 < threshold →
      validate_opportunity threshold opp (some (97, 98)) (some (100, 101)) =
        (false, { opp with spread_percent := 100/49, mexc_price := 98, other_price := 100 })) := by
  refine ⟨?_, ?_, ?_⟩
  · intro mb oa h1 h2
    simp only [validate_opportunity, hsig, entry_price_of, exit_price_of, if_pos]
    rw [if_neg (by push_neg; exact ⟨h1, h2⟩), if_pos (by norm_num : (100:ℚ) ≥ 98)]
  · intro h3
    simp only [validate_opportunity, hsig, entry_price_of, exit_price_of, if_pos]
    rw [if_neg (by norm_num), if_neg (by norm_num)]
    rw [if_neg (by norm_num at h3 ⊢; linarith)]
    norm_num
  · intro h3
    simp only [validate_opportunity, hsig, entry_price_of, exit_price_of, if_pos]
    rw [if_neg (by norm_num), if_neg (by norm_num)]
    rw [if_pos (by norm_num at h3 ⊢; linarith)]
    norm_num

/-- Witness for C5 at threshold 2%: the entry ≥ exit case rejects untouched,
and the entry 98 / exit 100 case accepts with real spread 100/49. -/
theorem C5_witness :
    validate_opportunity 2 oppC5 (some (96, 100)) (some (98, 100)) = (false, oppC5) ∧
    validate_opportunity 2 oppC5 (some (97, 98)) (some (100, 101)) =
      (true, { oppC5 with spread_percent := 100/49, mexc_price := 98, other_price := 100 }) :=
  ⟨(C5_amended 2 oppC5 rfl).1 96 100 (by norm_num) (by norm_num),
   (C5_amended 2 oppC5 rfl).2.1 (by norm_num)⟩

/-- C10 counterexample: with `minVolume = 2·10⁹` the secondary-volume
rejection does fire for a fixed-volume (non-Binance) exchange: the pair is
dropped although the primary volume passes its own gate and the spread and
quality gates would both pass. -/
theorem C10_counterexample :
    dictGet (fixedVolumeSnapshot [("SOLUSDT", 200)]) "SOLUSDT" = some (200, 1000000000) ∧
    detectPair 10 2000000000 "SOLUSDT" 100 3000000000 "Gate" 200 1000000000 = none ∧
    (2000000000 : ℚ) ≤ 3000000000 ∧
    ¬ (spreadOf 100 200 < 10) ∧
    ¬ (calculate_quality (spreadOf 100 200) (effectiveVolume 3000000000 1000000000) < 40) := by
  refine ⟨by simp +decide [fixedVolumeSnapshot, dictGet], ?_, by norm_num, ?_, ?_⟩
  · norm_num [detectPair, effectiveVolume, spreadOf]
  · norm_num [spreadOf]
  · norm_num [calculate_quality, spreadOf, effectiveVolume, volumeScore, spreadScore, bonusScore]

/-- C10 amended: the non-Binance price-fetch branch really fixes every
volume at 10⁹, so the detector's fallback for unknown secondary volume is
never taken there and `effectiveVolume = min(primaryVolume, 10⁹)`; and
provided `minVolume ≤ 10⁹` (true of the 500K default), the secondary-volume
rejection can never fire for those exchanges: a pair whose primary volume
passed the primary gate is dropped only by the spread or quality gate. -/
theorem C10_amended :
    (∀ (raw : List (String × ℚ)) (sym : String) (pv : ℚ × ℚ),
      dictGet (fixedVolumeSnapshot raw) sym = some pv → pv.2 = 1000000000) ∧
    (∀ mexc_vol : ℚ, effectiveVolume mexc_vol 1000000000 = min mexc_vol 1000000000) ∧
    (∀ min_volume mexc_vol : ℚ, min_volume ≤ 1000000000 → min_volume ≤ mexc_vol →
      ¬ (effectiveVolume mexc_vol 1000000000 < min_volume)) ∧
    (∀ (ms min_volume : ℚ) (sym : String) (mp mv : ℚ) (ex : String) (p : ℚ),
      min_volume ≤ 1000000000 → min_volume ≤ mv →
      detectPair ms min_volume sym mp mv ex p 1000000000 = none →
      (spreadOf mp p < ms ∨
        calculate_quality (spreadOf mp p) (min mv 1000000000) < 40)) := by
  have heff : ∀ mexc_vol : ℚ, effectiveVolume mexc_vol 1000000000 = min mexc_vol 1000000000 :=
    fun mv => by rw [effectiveVolume, if_pos (by norm_num)]
  have hnof : ∀ min_volume mexc_vol : ℚ, min_volume ≤ 1000000000 → min_volume ≤ mexc_vol →
      ¬ (effectiveVolume mexc_vol 1000000000 < min_volume) := by
    intro mvol mv h1 h2
    rw [heff]
    exact not_lt.mpr (le_min h2 h1)
  refine ⟨?_, heff, hnof, ?_⟩
  · intro raw sym pv h
    induction raw with
    | nil => simp [fixedVolumeSnapshot, dictGet] at h
    | cons e rest ih =>
      rw [fixedVolumeSnapshot, List.map_cons, dictGet] at h
      by_cases he : e.1 = sym
      · rw [if_pos he, Option.some.injEq] at h
        rw [← h]
      · rw [if_neg he] at h
        exact ih h
  · intro ms mvol sym mp mv ex p h1 h2 hnone
    rw [detectPair] at hnone
    rw [if_neg (hnof mvol mv h1 h2)] at hnone
    by_cases hsp : spreadOf mp p < ms
    · exact Or.inl hsp
    · rw [if_neg hsp] at hnone
      by_cases hq : calculate_quality (spreadOf mp p) (effectiveVolume mv 1000000000) < 40
      · rw [heff] at hq
        exact Or.inr hq
      · rw [if_neg hq] at hnone
        simp at hnone

/-- Witness for C10 at concrete inputs: the fixed snapshot volume, the
effective-volume identity, the gate that cannot fire at the 500K default,
and a dropped pair explained by the spread gate. -/
theorem C10_witness :
    ((200:ℚ), (1000000000:ℚ)).2 = 1000000000 ∧
    effectiveVolume 3000000000 1000000000 = min 3000000000 1000000000 ∧
    ¬ (effectiveVolume 3000000000 1000000000 < 500000) ∧
    (spreadOf 100 100 < 10 ∨
      calculate_quality (spreadOf 100 100) (min 3000000000 1000000000) < 40) :=
  ⟨C10_amended.1 [("SOLUSDT", 200)] "SOLUSDT" (200, 1000000000)
      (by simp +decide [fixedVolumeSnapshot, dictGet]),
   C10_amended.2.1 3000000000,
   C10_amended.2.2.1 500000 3000000000 (by norm_num) (by norm_num),
   C10_amended.2.2.2 10 500000 "BTCUSDT" 100 3000000000 "Gate" 100
      (by norm_num) (by norm_num)
      (by norm_num [detectPair, effectiveVolume, spreadOf])⟩

/-- Last notification time recorded for a key, when the key is tracked. -/
def lastTimeAt (state : List (String × SpreadHistory)) (key : String) : Option ℚ :=
  (dictGet state key).map fun h => h.last_notification_time

/-- Looking up the key just stored returns the stored value. -/
lemma dictGet_dictSet_self {α : Type} (l : List (String × α)) (k : String) (v : α) :
    dictGet (dictSet l k v) k = some v := by
  induction l with
  | nil => simp [dictSet, dictGet]
  | cons e rest ih =>
    obtain ⟨k0, v0⟩ := e
    rw [dictSet]
    by_cases he : k0 = k
    · rw [if_pos he, dictGet, if_pos he]
    · rw [if_neg he, dictGet, if_neg he]
      exact ih

/-- Storing under one key leaves every other key's lookup unchanged. -/
lemma dictGet_dictSet_ne {α : Type} (l : List (String × α)) {k k' : String}
    (hne : k' ≠ k) (v : α) : dictGet (dictSet l k v) k' = dictGet l k' := by
  induction l with
  | nil =>
    simp only [dictSet, dictGet]
    rw [if_neg (fun h => hne h.symm)]
  | cons e rest ih =>
    obtain ⟨k0, v0⟩ := e
    rw [dictSet]
    by_cases he : k0 = k
    · rw [if_pos he, dictGet, dictGet]
      rw [he]
      rw [if_neg (fun h => hne h.symm), if_neg (fun h => hne h.symm)]
    · rw [if_neg he, dictGet, dictGet]
      by_cases he2 : k0 = k'
      · rw [if_pos he2, if_pos he2]
      · rw [if_neg he2, if_neg he2]
        exact ih

/-- `_update_history` stamps the event time on the event's own key. -/
lemma lastTimeAt_update_history_self (state : List (String × SpreadHistory))
    (opp : SpreadOpportunity) (now : ℚ) :
    lastTimeAt (update_history state opp now) (getKey opp.symbol opp.other_exchange) =
      some now := by
  rw [update_history]
  cases dictGet state (getKey opp.symbol opp.other_exchange) with
  | none => rw [lastTimeAt, dictGet_dictSet_self]; rfl
  | some h => rw [lastTimeAt, dictGet_dictSet_self]; rfl

/-- `_update_history` leaves every other key's entry untouched. -/
lemma lastTimeAt_update_history_ne (state : List (String × SpreadHistory))
    (opp : SpreadOpportunity) (now : ℚ) {key : String}
    (hne : key ≠ getKey opp.symbol opp.other_exchange) :
    lastTimeAt (update_history state opp now) key = lastTimeAt state key := by
  rw [update_history]
  cases dictGet state (getKey opp.symbol opp.other_exchange) with
  | none => rw [lastTimeAt, dictGet_dictSet_ne _ hne, lastTimeAt]
  | some h => rw [lastTimeAt, dictGet_dictSet_ne _ hne, lastTimeAt]

/-- `update_spread_without_notify` never changes any notification time. -/
lemma lastTimeAt_usn (state : List (String × SpreadHistory))
    (opp : SpreadOpportunity) (key : String) :
    lastTimeAt (update_spread_without_notify state opp) key = lastTimeAt state key := by
  rw [update_spread_without_notify]
  cases hg : dictGet state (getKey opp.symbol opp.other_exchange) with
  | none => rfl
  | some h =>
    by_cases hk : key = getKey opp.symbol opp.other_exchange
    · subst hk
      rw [lastTimeAt, dictGet_dictSet_self, lastTimeAt, hg]
      rfl
    · rw [lastTimeAt, dictGet_dictSet_ne _ hk, lastTimeAt]

/-- Unfolding `notifyTimes` over one run event. -/
lemma notifyTimes_cons (key k : String) (t : ℚ) (l : List (String × ℚ)) :
    notifyTimes key ((k, t) :: l) =
      if k = key then t :: notifyTimes key l else notifyTimes key l := by
  rw [notifyTimes, notifyTimes, List.filterMap_cons]
  by_cases h : k = key
  · rw [if_pos h]
    simp [h]
  · rw [if_neg h]
    simp [h]

/-- Unfolding `runNotify` over one event. -/
lemma runNotify_cons (mc mcd xcd : ℚ) (state : List (String × SpreadHistory))
    (opp : SpreadOpportunity) (now : ℚ) (rest : List (SpreadOpportunity × ℚ)) :
    runNotify mc mcd xcd state ((opp, now) :: rest) =
      if (should_notify mc mcd xcd state opp now).1 then
        (getKey opp.symbol opp.other_exchange, now) ::
          runNotify mc mcd xcd (should_notify mc mcd xcd state opp now).2.2 rest
      else
        runNotify mc mcd xcd
          (update_spread_without_notify
            (should_notify mc mcd xcd state opp now).2.2 opp) rest := by
  rw [runNotify]

/-- Outcome analysis of `should_notify`: a fresh key notifies and stamps the
history; a tracked key either suppresses inside the min cooldown leaving the
map alone, or — at least `minCooldown` after the last notification — either
notifies (stamping the history) or suppresses leaving the map alone. -/
lemma should_notify_spec (mc mcd xcd : ℚ) (state : List (String × SpreadHistory))
    (opp : SpreadOpportunity) (now : ℚ) :
    (dictGet state (getKey opp.symbol opp.other_exchange) = none ∧
      should_notify mc mcd xcd state opp now =
        (true, NotifyReason.NEW_SPREAD, update_history state opp now)) ∨
    (∃ h, dictGet state (getKey opp.symbol opp.other_exchange) = some h ∧
      ((now - h.last_notification_time < mcd ∧
        should_notify mc mcd xcd state opp now =
          (false, NotifyReason.MIN_COOLDOWN, state)) ∨
       (mcd ≤ now - h.last_notification_time ∧
        (should_notify mc mcd xcd state opp now =
          (true, NotifyReason.SPREAD_CHANGED, update_history state opp now) ∨
         should_notify mc mcd xcd state opp now =
          (true, NotifyReason.MAX_COOLDOWN, update_history state opp now) ∨
         should_notify mc mcd xcd state opp now =
          (false, NotifyReason.NO_SIGNIFICANT_CHANGE, state))))) := by
  rw [should_notify]
  cases hsk : dictGet state (getKey opp.symbol opp.other_exchange) with
  | none => exact Or.inl ⟨rfl, rfl⟩
  | some h =>
    refine Or.inr ⟨h, rfl, ?_⟩
    dsimp only
    split_ifs with c1 c2 c3
    · exact Or.inl ⟨c1, rfl⟩
    · exact Or.inr ⟨not_lt.mp c1, Or.inl rfl⟩
    · exact Or.inr ⟨not_lt.mp c1, Or.inr (Or.inl rfl)⟩
    · exact Or.inr ⟨not_lt.mp c1, Or.inr (Or.inr rfl)⟩

/-- Core induction for C2: starting from the tracked notification time of a
key (when there is one), consecutive notify events of a run for that key are
always at least `minCooldown` apart. -/
lemma runNotify_gap (mc mcd xcd : ℚ) (events : List (SpreadOpportunity × ℚ)) :
    ∀ (state : List (String × SpreadHistory)) (key : String),
      (∀ t, lastTimeAt state key = some t →
        List.Chain (fun a b => mcd ≤ b - a) t
          (notifyTimes key (runNotify mc mcd xcd state events))) ∧
      (lastTimeAt state key = none →
        List.Chain' (fun a b => mcd ≤ b - a)
          (notifyTimes key (runNotify mc mcd xcd state events))) := by
  induction events with
  | nil =>
    intro state key
    constructor
    · intro t _
      rw [runNotify, notifyTimes, List.filterMap_nil]
      exact List.Chain.nil
    · intro _
      rw [runNotify, notifyTimes, List.filterMap_nil]
      exact List.chain'_nil
  | cons e rest ih =>
    intro state key
    obtain ⟨opp, now⟩ := e
    rcases should_notify_spec mc mcd xcd state opp now with
      ⟨hsk, hr⟩ | ⟨h, hsk, ⟨hlt, hr⟩ | ⟨hge, hnote⟩⟩
    · -- NEW_SPREAD: fresh key, notify, history stamped with `now`
      rw [runNotify_cons, hr, if_pos rfl]
      rw [notifyTimes_cons]
      by_cases hk : getKey opp.symbol opp.other_exchange = key
      · rw [if_pos hk]
        constructor
        · intro t ht
          exfalso
          rw [lastTimeAt, ← hk, hsk] at ht
          simp at ht
        · intro _
          exact (ih (update_history state opp now) key).1 now
            (by rw [← hk]; exact lastTimeAt_update_history_self state opp now)
      · rw [if_neg hk]
        have hpres : lastTimeAt (update_history state opp now) key = lastTimeAt state key :=
          lastTimeAt_update_history_ne state opp now (fun he => hk he.symm)
        constructor
        · intro t ht
          exact (ih (update_history state opp now) key).1 t (by rw [hpres]; exact ht)
        · intro hn
          exact (ih (update_history state opp now) key).2 (by rw [hpres]; exact hn)
    · -- MIN_COOLDOWN: suppressed, map untouched, then lastSpread refreshed
      rw [runNotify_cons, hr]
      have hpres : lastTimeAt (update_spread_without_notify state opp) key =
          lastTimeAt state key := lastTimeAt_usn state opp key
      constructor
      · intro t ht
        exact (ih (update_spread_without_notify state opp) key).1 t
          (by rw [hpres]; exact ht)
      · intro hn
        exact (ih (update_spread_without_notify state opp) key).2
          (by rw [hpres]; exact hn)
    · -- tracked key, at least `minCooldown` after the last notification
      rcases hnote with hr | hr | hr
      case inr.inr =>
        -- NO_SIGNIFICANT_CHANGE: suppressed, map untouched
        rw [runNotify_cons, hr]
        have hpres : lastTimeAt (update_spread_without_notify state opp) key =
            lastTimeAt state key := lastTimeAt_usn state opp key
        constructor
        · intro t ht
          exact (ih (update_spread_without_notify state opp) key).1 t
            (by rw [hpres]; exact ht)
        · intro hn
          exact (ih (update_spread_without_notify state opp) key).2
            (by rw [hpres]; exact hn)
      all_goals
        rw [runNotify_cons, hr, if_pos rfl]
        rw [notifyTimes_cons]
        by_cases hk : getKey opp.symbol opp.other_exchange = key
        · rw [if_pos hk]
          constructor
          · intro t ht
            have hth : t = h.last_notification_time := by
              rw [lastTimeAt, ← hk, hsk] at ht
              simp at ht
              exact ht.symm
            exact List.Chain.cons (by rw [hth]; linarith)
              ((ih (update_history state opp now) key).1 now
                (by rw [← hk]; exact lastTimeAt_update_history_self state opp now))
          · intro hn
            exfalso
            rw [lastTimeAt, ← hk, hsk] at hn
            simp at hn
        · rw [if_neg hk]
          have hpres : lastTimeAt (update_history state opp now) key =
              lastTimeAt state key :=
            lastTimeAt_update_history_ne state opp now (fun he => hk he.symm)
          constructor
          · intro t ht
            exact (ih (update_history state opp now) key).1 t (by rw [hpres]; exact ht)
          · intro hn
            exact (ih (update_history state opp now) key).2 (by rw [hpres]; exact hn)

/-- C2: whenever a history entry exists for the key and
`now − lastNotificationTime < minCooldown`, the decision is MIN_COOLDOWN →
suppress with the map untouched, whatever the spread change; consequently,
over any run from any starting state, consecutive notify outcomes for the
same key are never less than `minCooldown` apart. -/
theorem C2_min_cooldown_guarantee (mc mcd xcd : ℚ) :
    (∀ (state : List (String × SpreadHistory)) (opp : SpreadOpportunity) (now : ℚ)
       (h : SpreadHistory),
      dictGet state (getKey opp.symbol opp.other_exchange) = some h →
      now - h.last_notification_time < mcd →
      should_notify mc mcd xcd state opp now =
        (false, NotifyReason.MIN_COOLDOWN, state)) ∧
    (∀ (state : List (String × SpreadHistory)) (events : List (SpreadOpportunity × ℚ))
       (key : String),
      List.Chain' (fun a b => mcd ≤ b - a)
        (notifyTimes key (runNotify mc mcd xcd state events))) := by
  constructor
  · intro state opp now h hget hlt
    rw [should_notify, hget]
    dsimp only
    rw [if_pos hlt]
  · intro state events key
    cases hlt : lastTimeAt state key with
    | none => exact (runNotify_gap mc mcd xcd events state key).2 hlt
    | some t =>
      have hch := (runNotify_gap mc mcd xcd events state key).1 t hlt
      exact (show List.Chain' (fun a b => mcd ≤ b - a)
        (t :: notifyTimes key (runNotify mc mcd xcd state events)) from hch).tail

/-- Tracked history entry used by the C2 witness. -/
def histW : SpreadHistory :=
  { symbol := "BTCUSDT", exchange := "Binance", last_spread := 12,
    last_notification_time := 0, last_notification_spread := 12,
    notification_count := 1 }

/-- Witness for C2: one minute after a notification, with a three-minute
minimum cooldown, the engine suppresses with MIN_COOLDOWN even though the
spread moved from 12% to 15%. -/
theorem C2_witness :
    should_notify 5 3 30 [("BTCUSDT_Binance", histW)] oppW 1 =
      (false, NotifyReason.MIN_COOLDOWN, [("BTCUSDT_Binance", histW)]) :=
  (C2_min_cooldown_guarantee 5 3 30).1 [("BTCUSDT_Binance", histW)] oppW 1 histW
    (by simp +decide [dictGet, getKey, oppW]) (by norm_num [histW])

end MMRcex
